import Mathlib

/-!
Verification of the agent-cpp core against its natural-language specification.

The C++ sources are shallowly embedded: pure functions become Lean functions,
stateful components (the permission cache, the MCP transports and client)
become explicit state passing, and fallible C++ code (JSON access that can
throw, `std::stoi`) returns `Except`/`Option`. Machine integers (`int64_t`
request ids, byte counts) are modelled as `Int`/`Nat`; none of the verified
programs approach the overflow range.
-/

namespace AgentCpp

/-! ## Permission manager (src/tool/permission.cpp, src/tool/permission.hpp) -/

/-- Permission verdicts, from `core/types.hpp` usage in `permission.cpp` and
the spec's `{Allow, Ask, Deny}` policy range. -/
inductive Permission where
  | Allow
  | Ask
  | Deny
  deriving DecidableEq, Repr

/-- Agent configuration: only the four fields read by
`PermissionManager::check_permission` are modelled (the C++ `AgentConfig`
carries further fields — id, model, prompts — that the permission code never
touches). `permissions` is the explicit per-tool map. -/
structure AgentConfig where
  default_permission : Permission
  allowed_tools : List String
  denied_tools : List String
  permissions : List (String × Permission)

/-- Runtime permission cache `PermissionManager::cache_`
(`std::map<std::string, Permission>`), modelled as an association list. -/
def PermCache := List (String × Permission)

/-- Association-list lookup, modelling `std::map::find`. -/
def lookupAssoc {α : Type} : List (String × α) → String → Option α
  | [], _ => none
  | (k2, v) :: rest, k => if k2 = k then some v else lookupAssoc rest k

/-- Association-list insert-or-assign, modelling `std::map::operator[] =`. -/
def insertAssoc {α : Type} : List (String × α) → String → α → List (String × α)
  | [], k, v => [(k, v)]
  | (k2, v2) :: rest, k, v =>
    if k2 = k then (k2, v) :: rest else (k2, v2) :: insertAssoc rest k v

/-- Direct translation of `PermissionManager::check_permission`
(permission.cpp lines 12-43): denied list, then non-empty allow list, then
the explicit permissions map, then the runtime cache, then the default. -/
def check_permission (tool_id : String) (cfg : AgentConfig) (cache : PermCache) :
    Permission :=
  if tool_id ∈ cfg.denied_tools then Permission.Deny
  else if cfg.allowed_tools ≠ [] ∧ tool_id ∉ cfg.allowed_tools then Permission.Deny
  else
    match lookupAssoc cfg.permissions tool_id with
    | some p => p
    | none =>
      match lookupAssoc cache tool_id with
      | some p => p
      | none => cfg.default_permission

/-- Translation of `PermissionManager::grant`: cache the Allow decision. -/
def grant (cache : PermCache) (tool_id : String) : PermCache :=
  insertAssoc cache tool_id Permission.Allow

/-- Translation of `PermissionManager::deny`: cache the Deny decision. -/
def deny (cache : PermCache) (tool_id : String) : PermCache :=
  insertAssoc cache tool_id Permission.Deny

/-- Translation of `PermissionManager::get_cached`. -/
def get_cached (cache : PermCache) (tool_id : String) : Option Permission :=
  lookupAssoc cache tool_id

/-- Translation of `PermissionManager::clear_cache`. -/
def clear_cache (_cache : PermCache) : PermCache := []

/-! ## JSON values (nlohmann::json subset)

The MCP layer manipulates `nlohmann::json` values. The embedding models the
value tree with objects as insertion-ordered association lists and numbers
restricted to integers: every numeral appearing in the verified code paths
(request ids, error codes) is integral. Fallible accessors (`get<T>`,
`value(key, default)`) return `Except`, mirroring the exceptions nlohmann
throws on type mismatches. -/

/-- JSON value tree. -/
inductive Json where
  | null
  | bool (b : Bool)
  | num (n : Int)
  | str (s : String)
  | arr (elems : List Json)
  | obj (fields : List (String × Json))

/-- Object key lookup; non-objects hold no keys (as with nlohmann `find`). -/
def Json.lookup : Json → String → Option Json
  | .obj fields, k => lookupAssoc fields k
  | _, _ => none

/-- Translation of nlohmann `contains`: false on every non-object. -/
def Json.containsKey (j : Json) (k : String) : Bool :=
  (j.lookup k).isSome

/-- Test for the JSON null value (`is_null`). -/
def Json.isNull : Json → Bool
  | .null => true
  | _ => false

/-- Translation of nlohmann `empty()`: true for null and for empty
arrays/objects, false for every other value. -/
def Json.isEmptyJson : Json → Bool
  | .null => true
  | .arr elems => elems.isEmpty
  | .obj fields => fields.isEmpty
  | _ => false

/-- Translation of nlohmann iteration (`begin()`/`end()` range): arrays give
their elements, objects their mapped values, null nothing, and any primitive
a single element — exactly nlohmann's iterator semantics. -/
def Json.iterElems : Json → List Json
  | .null => []
  | .arr elems => elems
  | .obj fields => fields.map (fun kv => kv.2)
  | j => [j]

/-- Translation of `get<std::string>`: throws (here: errs) off strings. -/
def Json.getStr : Json → Except String String
  | .str s => .ok s
  | _ => .error "type must be string"

/-- Translation of `get<bool>`. -/
def Json.getBool : Json → Except String Bool
  | .bool b => .ok b
  | _ => .error "type must be boolean"

/-- Translation of `get<int64_t>`. -/
def Json.getInt : Json → Except String Int
  | .num n => .ok n
  | _ => .error "type must be number"

/-- Translation of `value(key, default)` with a string default: the stored
value must then be a string; a non-object receiver throws. -/
def Json.valueStr (j : Json) (k : String) (dflt : String) : Except String String :=
  match j with
  | .obj fields =>
    match lookupAssoc fields k with
    | some v => v.getStr
    | none => .ok dflt
  | _ => .error "cannot use value() with this type"

/-- Translation of `value(key, default)` with a boolean default. -/
def Json.valueBool (j : Json) (k : String) (dflt : Bool) : Except String Bool :=
  match j with
  | .obj fields =>
    match lookupAssoc fields k with
    | some v => v.getBool
    | none => .ok dflt
  | _ => .error "cannot use value() with this type"

/-- Translation of `value(key, default)` with a json default: any stored
value is returned as-is. -/
def Json.valueJson (j : Json) (k : String) (dflt : Json) : Except String Json :=
  match j with
  | .obj fields =>
    match lookupAssoc fields k with
    | some v => .ok v
    | none => .ok dflt
  | _ => .error "cannot use value() with this type"

/-- Opening brace character (written via its code point to keep brace
characters out of literals). -/
def lbraceChar : Char := Char.ofNat 123

/-- Closing brace character. -/
def rbraceChar : Char := Char.ofNat 125

/-- Minimal JSON string escaping as `dump` performs it; the verified inputs
contain no control characters beyond these. -/
def escChar (c : Char) : String :=
  if c = '"' then "\\\""
  else if c = '\\' then "\\\\"
  else if c = '\n' then "\\n"
  else if c = '\r' then "\\r"
  else if c = '\t' then "\\t"
  else String.singleton c

/-- Escape a whole string for serialization. -/
def escStr (s : String) : String :=
  String.join (s.toList.map escChar)

/-- Indentation: `n` spaces. -/
def spaces (n : Nat) : String :=
  String.join (List.replicate n " ")

mutual

/-- Serialization with pretty-printing, modelling nlohmann `dump(indent)`:
`iw` is the indent width, `cur` the current indentation level in spaces.
Mirrors nlohmann's layout: empty containers print inline, non-empty ones one
element per line. -/
def Json.dumpAux : Json → Nat → Nat → String
  | .null, _, _ => "null"
  | .bool true, _, _ => "true"
  | .bool false, _, _ => "false"
  | .num n, _, _ => toString n
  | .str s, _, _ => "\"" ++ escStr s ++ "\""
  | .arr [], _, _ => "[]"
  | .arr (x :: xs), iw, cur =>
    "[\n" ++ Json.dumpArrItems (x :: xs) iw (cur + iw) ++ "\n" ++ spaces cur ++ "]"
  | .obj [], _, _ => "\x7b\x7d"
  | .obj (f :: fs), iw, cur =>
    "\x7b\n" ++ Json.dumpObjItems (f :: fs) iw (cur + iw) ++ "\n" ++ spaces cur ++ "\x7d"

/-- Serialize array elements, one per line, comma separated. -/
def Json.dumpArrItems : List Json → Nat → Nat → String
  | [], _, _ => ""
  | [x], iw, cur => spaces cur ++ Json.dumpAux x iw cur
  | x :: y :: xs, iw, cur =>
    spaces cur ++ Json.dumpAux x iw cur ++ ",\n" ++ Json.dumpArrItems (y :: xs) iw cur

/-- Serialize object fields, one per line, comma separated. -/
def Json.dumpObjItems : List (String × Json) → Nat → Nat → String
  | [], _, _ => ""
  | [(k, v)], iw, cur => spaces cur ++ "\"" ++ escStr k ++ "\": " ++ Json.dumpAux v iw cur
  | (k, v) :: f :: fs, iw, cur =>
    spaces cur ++ "\"" ++ escStr k ++ "\": " ++ Json.dumpAux v iw cur ++ ",\n" ++
      Json.dumpObjItems (f :: fs) iw cur

end

/-- Entry point matching `dump(indent)` as the bridge calls it. -/
def Json.dump (indent : Nat) (j : Json) : String :=
  Json.dumpAux j indent 0

/-- Whitespace test for the JSON grammar. -/
def isJsonWs (c : Char) : Bool :=
  c = ' ' ∨ c = '\n' ∨ c = '\r' ∨ c = '\t'

/-- Skip leading JSON whitespace. -/
def skipJsonWs : List Char → List Char
  | [] => []
  | c :: rest => if isJsonWs c then skipJsonWs rest else c :: rest

/-- Parse a run of decimal digits into a natural number; fails on an empty
run. -/
def parseDigits : List Char → Nat → Bool → Option (Nat × List Char)
  | c :: rest, acc, seen =>
    if c.isDigit then parseDigits rest (acc * 10 + (c.toNat - 48)) true
    else if seen then some (acc, c :: rest) else none
  | [], acc, seen => if seen then some (acc, []) else none

/-- Parse a JSON string body after the opening quote, handling the escapes
the verified inputs can contain. -/
def parseStrBody : Nat → List Char → List Char → Option (String × List Char)
  | 0, _, _ => none
  | _ + 1, [], _ => none
  | fuel + 1, c :: rest, acc =>
    if c = '"' then some (String.mk acc.reverse, rest)
    else if c = '\\' then
      match rest with
      | [] => none
      | e :: rest2 =>
        if e = '"' then parseStrBody fuel rest2 ('"' :: acc)
        else if e = '\\' then parseStrBody fuel rest2 ('\\' :: acc)
        else if e = '/' then parseStrBody fuel rest2 ('/' :: acc)
        else if e = 'n' then parseStrBody fuel rest2 ('\n' :: acc)
        else if e = 'r' then parseStrBody fuel rest2 ('\r' :: acc)
        else if e = 't' then parseStrBody fuel rest2 ('\t' :: acc)
        else none
    else parseStrBody fuel rest (c :: acc)

mutual

/-- Recursive-descent JSON value parser (fuel-bounded; the wrapper passes
ample fuel). Numbers are restricted to integers — a fraction or exponent
fails the parse, which no verified input contains. -/
def parseJsonValue : Nat → List Char → Option (Json × List Char)
  | 0, _ => none
  | fuel + 1, cs =>
    match skipJsonWs cs with
    | [] => none
    | c :: rest =>
      if c = lbraceChar then
        match skipJsonWs rest with
        | c2 :: rest2 =>
          if c2 = rbraceChar then some (Json.obj [], rest2)
          else parseJsonObjFields fuel (c2 :: rest2) []
        | [] => none
      else if c = '[' then
        match skipJsonWs rest with
        | c2 :: rest2 =>
          if c2 = ']' then some (Json.arr [], rest2)
          else parseJsonArrItems fuel (c2 :: rest2) []
        | [] => none
      else if c = '"' then
        match parseStrBody (rest.length + 1) rest [] with
        | some (s, rest2) => some (Json.str s, rest2)
        | none => none
      else if c = 't' then
        match rest with
        | 'r' :: 'u' :: 'e' :: rest2 => some (Json.bool true, rest2)
        | _ => none
      else if c = 'f' then
        match rest with
        | 'a' :: 'l' :: 's' :: 'e' :: rest2 => some (Json.bool false, rest2)
        | _ => none
      else if c = 'n' then
        match rest with
        | 'u' :: 'l' :: 'l' :: rest2 => some (Json.null, rest2)
        | _ => none
      else if c = '-' then
        match parseDigits rest 0 false with
        | some (n, rest2) =>
          match rest2 with
          | d :: _ => if d = '.' ∨ d = 'e' ∨ d = 'E' then none
                      else some (Json.num (-(n : Int)), rest2)
          | [] => some (Json.num (-(n : Int)), [])
        | none => none
      else if c.isDigit then
        match parseDigits (c :: rest) 0 false with
        | some (n, rest2) =>
          match rest2 with
          | d :: _ => if d = '.' ∨ d = 'e' ∨ d = 'E' then none
                      else some (Json.num (n : Int), rest2)
          | [] => some (Json.num (n : Int), [])
        | none => none
      else none

/-- Parse the remaining fields of a non-empty JSON object (positioned at the
first key). -/
def parseJsonObjFields : Nat → List Char → List (String × Json) →
    Option (Json × List Char)
  | 0, _, _ => none
  | fuel + 1, cs, acc =>
    match skipJsonWs cs with
    | '"' :: rest =>
      match parseStrBody (rest.length + 1) rest [] with
      | some (k, rest2) =>
        match skipJsonWs rest2 with
        | ':' :: rest3 =>
          match parseJsonValue fuel rest3 with
          | some (v, rest4) =>
            match skipJsonWs rest4 with
            | ',' :: rest5 => parseJsonObjFields fuel rest5 ((k, v) :: acc)
            | c :: rest5 =>
              if c = rbraceChar then some (Json.obj ((k, v) :: acc).reverse, rest5)
              else none
            | [] => none
          | none => none
        | _ => none
      | none => none
    | _ => none

/-- Parse the remaining items of a non-empty JSON array (positioned at the
first item). -/
def parseJsonArrItems : Nat → List Char → List Json → Option (Json × List Char)
  | 0, _, _ => none
  | fuel + 1, cs, acc =>
    match parseJsonValue fuel cs with
    | some (v, rest) =>
      match skipJsonWs rest with
      | ',' :: rest2 => parseJsonArrItems fuel rest2 (v :: acc)
      | ']' :: rest2 => some (Json.arr (v :: acc).reverse, rest2)
      | _ => none
    | none => none

end

/-- Translation of `nlohmann::json::parse` on a byte string: parse one value
and require only whitespace to remain, otherwise fail (nlohmann throws
`parse_error`). -/
def Json.parse (body : List Char) : Option Json :=
  match parseJsonValue (2 * body.length + 4) body with
  | some (j, rest) => if (skipJsonWs rest).isEmpty then some j else none
  | none => none

/-- First-match-wins selection over an ordered rule list, used to phrase the
spec's evaluation order. -/
def firstSome {α : Type} : List (Option α) → α → α
  | [], dflt => dflt
  | some v :: _, _ => v
  | none :: rest, dflt => firstSome rest dflt

/-- Permission policy as the spec words it (spec section 4.5): an ordered
rule list where the first matching rule wins. -/
def check_permission_spec (tool_id : String) (cfg : AgentConfig) (cache : PermCache) :
    Permission :=
  firstSome
    [ if tool_id ∈ cfg.denied_tools then some Permission.Deny else none,
      if cfg.allowed_tools ≠ [] ∧ tool_id ∉ cfg.allowed_tools then some Permission.Deny
      else none,
      lookupAssoc cfg.permissions tool_id,
      lookupAssoc cache tool_id ]
    cfg.default_permission

/-! ## JSON-RPC 2.0 messages (src/mcp/transport.hpp, transport.cpp) -/

mutual

/-- Compact serialization, modelling nlohmann `dump()` without indent (used
by `error_message` for errors lacking a message field). -/
def Json.dumpC : Json → String
  | .null => "null"
  | .bool true => "true"
  | .bool false => "false"
  | .num n => toString n
  | .str s => "\"" ++ escStr s ++ "\""
  | .arr xs => "[" ++ Json.dumpCArr xs ++ "]"
  | .obj fs => "\x7b" ++ Json.dumpCObj fs ++ "\x7d"

/-- Compact serialization of array elements. -/
def Json.dumpCArr : List Json → String
  | [] => ""
  | [x] => Json.dumpC x
  | x :: y :: xs => Json.dumpC x ++ "," ++ Json.dumpCArr (y :: xs)

/-- Compact serialization of object fields. -/
def Json.dumpCObj : List (String × Json) → String
  | [] => ""
  | [(k, v)] => "\"" ++ escStr k ++ "\":" ++ Json.dumpC v
  | (k, v) :: f :: fs => "\"" ++ escStr k ++ "\":" ++ Json.dumpC v ++ "," ++ Json.dumpCObj (f :: fs)

end

/-- JSON-RPC request (transport.hpp lines 16-22). Ids are `int64_t`,
modelled as `Int`; no verified run approaches the 64-bit range. -/
structure JsonRpcRequest where
  method : String
  params : Json := Json.obj []
  id : Int := 0

/-- Translation of `JsonRpcRequest::to_json` (transport.cpp lines 33-42):
jsonrpc, method and id always; params only when non-empty. Objects are kept
in insertion order; only key lookups are relied upon, matching nlohmann's
sorted `std::map` storage up to ordering. -/
def JsonRpcRequest.to_json (r : JsonRpcRequest) : Json :=
  let base := [("jsonrpc", Json.str "2.0"), ("method", Json.str r.method),
               ("id", Json.num r.id)]
  Json.obj (if r.params.isEmptyJson then base else base ++ [("params", r.params)])

/-- JSON-RPC response (transport.hpp lines 24-36). -/
structure JsonRpcResponse where
  id : Int := 0
  result : Option Json := none
  error : Option Json := none

/-- Translation of `JsonRpcResponse::ok`. -/
def JsonRpcResponse.ok (r : JsonRpcResponse) : Bool :=
  r.error.isNone

/-- Translation of `JsonRpcResponse::error_message` (transport.cpp lines
44-51); `get<std::string>` on a non-string message throws, surfaced as an
error. -/
def JsonRpcResponse.error_message (r : JsonRpcResponse) : Except String String :=
  match r.error with
  | none => .ok ""
  | some err =>
    match err.lookup "message" with
    | some m => m.getStr
    | none => .ok (Json.dumpC err)

/-- Translation of `JsonRpcResponse::from_json` (transport.cpp lines 53-65):
the id defaults to 0 when absent or null; `get<int64_t>` on a non-numeric id
throws (the reader's catch then drops the message). -/
def JsonRpcResponse.from_json (j : Json) : Except String JsonRpcResponse :=
  match j.lookup "id" with
  | some v =>
    if v.isNull then .ok { id := 0, result := j.lookup "result", error := j.lookup "error" }
    else
      match v.getInt with
      | .error e => .error e
      | .ok n => .ok { id := n, result := j.lookup "result", error := j.lookup "error" }
  | none => .ok { id := 0, result := j.lookup "result", error := j.lookup "error" }

/-- JSON-RPC notification (transport.hpp lines 38-43). -/
structure JsonRpcNotification where
  method : String
  params : Json := Json.obj []

/-- Translation of `JsonRpcNotification::to_json` (transport.cpp lines
67-75). -/
def JsonRpcNotification.to_json (n : JsonRpcNotification) : Json :=
  let base := [("jsonrpc", Json.str "2.0"), ("method", Json.str n.method)]
  Json.obj (if n.params.isEmptyJson then base else base ++ [("params", n.params)])

/-- Transport lifecycle states (transport.hpp line 46). -/
inductive TransportState where
  | Disconnected
  | Connecting
  | Connected
  | Failed
  deriving DecidableEq, Repr

/-! ## Stdio transport framing (StdioTransport::Impl::reader_loop) -/

/-- Prefix test on character lists. -/
def leadsWith : List Char → List Char → Bool
  | [], _ => true
  | _ :: _, [] => false
  | p :: ps, h :: hs => p = h && leadsWith ps hs

/-- Substring search, modelling `std::string::find`: index of the first
occurrence. -/
def findSubAux (pat : List Char) : List Char → Nat → Option Nat
  | hay, i =>
    if leadsWith pat hay then some i
    else
      match hay with
      | [] => none
      | _ :: rest => findSubAux pat rest (i + 1)

/-- Search from the start of the buffer. -/
def findSub (hay pat : List Char) : Option Nat :=
  findSubAux pat hay 0

/-- Search from a start position, modelling `find(pat, pos)`. -/
def findSubFrom (hay pat : List Char) (start : Nat) : Option Nat :=
  (findSub (hay.drop start) pat).map (fun i => i + start)

/-- Whitespace class of `std::isspace` as `std::stoi` skips it. -/
def isStoiWs (c : Char) : Bool :=
  c = ' ' || c = '\t' || c = '\n' || c = '\r' || c = Char.ofNat 11 || c = Char.ofNat 12

/-- Skip leading `isspace` characters. -/
def skipStoiWs : List Char → List Char
  | [] => []
  | c :: rest => if isStoiWs c then skipStoiWs rest else c :: rest

/-- Translation of `std::stoi`: optional whitespace and sign, then at least
one digit; no digit throws `invalid_argument`. -/
def stoiChars (cs : List Char) : Except String Int :=
  match skipStoiWs cs with
  | '-' :: rest =>
    match parseDigits rest 0 false with
    | some (n, _) => .ok (-(n : Int))
    | none => .error "stoi: invalid_argument"
  | '+' :: rest =>
    match parseDigits rest 0 false with
    | some (n, _) => .ok (n : Int)
    | none => .error "stoi: invalid_argument"
  | other =>
    match parseDigits other 0 false with
    | some (n, _) => .ok (n : Int)
    | none => .error "stoi: invalid_argument"

/-- Header terminator bytes. -/
def headerTerm : List Char := ['\r', '\n', '\r', '\n']

/-- Content-Length header prefix (16 characters, transport.cpp line 312). -/
def clHeader : List Char := "Content-Length: ".toList

/-- Translation of the framing loop inside `reader_loop` (transport.cpp
lines 300-330): repeatedly locate the header terminator; a block whose
`Content-Length: ` is absent or sits past the terminator is dropped; an
incomplete body leaves the buffer untouched for the next read. Returns the
extracted bodies in order plus the leftover buffer. An `.error` marks the
paths where the C++ reader thread would throw out of the loop (`std::stoi`
on a non-numeric length) — unreachable for the verified inputs. A negative
parsed length makes the C++ size comparison wrap around `size_t` and always
break, modelled by the same break. -/
def extractFrames : Nat → List Char → List (List Char) →
    Except String (List (List Char) × List Char)
  | 0, _, _ => .error "fuel exhausted"
  | fuel + 1, buf, acc =>
    match findSub buf headerTerm with
    | none => .ok (acc.reverse, buf)
    | some headerEnd =>
      match findSub buf clHeader with
      | none => extractFrames fuel (buf.drop (headerEnd + 4)) acc
      | some clPos =>
        if headerEnd < clPos then extractFrames fuel (buf.drop (headerEnd + 4)) acc
        else
          let clValueStart := clPos + 16
          let lenChars :=
            match findSubFrom buf ['\r', '\n'] clValueStart with
            | some e => (buf.drop clValueStart).take (e - clValueStart)
            | none => buf.drop clValueStart
          match stoiChars lenChars with
          | .error e => .error e
          | .ok contentLength =>
            let bodyStart := headerEnd + 4
            if contentLength < 0 then .ok (acc.reverse, buf)
            else
              let n := contentLength.toNat
              if buf.length < bodyStart + n then .ok (acc.reverse, buf)
              else
                extractFrames fuel (buf.drop (bodyStart + n))
                  (((buf.drop bodyStart).take n) :: acc)

/-- Non-null id test (`msg.contains("id") && !msg["id"].is_null()`). -/
def idNonNull (msg : Json) : Bool :=
  match msg.lookup "id" with
  | some v => !v.isNull
  | none => false

/-- Result of dispatching one incoming message (`handle_incoming`,
transport.cpp lines 334-357): the updated pending set, the completed pending
request if one was fulfilled, and the notification delivered to the handler
if any. -/
structure DispatchResult where
  pending : List Int
  completed : Option (Int × JsonRpcResponse) := none
  notif : Option (String × Json) := none

/-- Translation of `StdioTransport::Impl::handle_incoming`: a message with a
non-null id and a result or error resolves the matching pending promise
(unknown ids are ignored); otherwise a message with a method is delivered as
a notification with `params` defaulting to an empty object. -/
def handle_incoming (msg : Json) (pending : List Int) : Except String DispatchResult :=
  if idNonNull msg && (msg.containsKey "result" || msg.containsKey "error") then
    match JsonRpcResponse.from_json msg with
    | .error e => .error e
    | .ok resp =>
      if resp.id ∈ pending then
        .ok { pending := pending.filter (fun i => i ≠ resp.id),
              completed := some (resp.id, resp) }
      else .ok { pending := pending }
  else
    match msg.lookup "method" with
    | some m =>
      match m.getStr with
      | .error e => .error e
      | .ok method =>
        match msg.valueJson "params" (Json.obj []) with
        | .error e => .error e
        | .ok params => .ok { pending := pending, notif := some (method, params) }
    | none => .ok { pending := pending }

/-- Reader-side state: the pending request ids and the partial-read buffer. -/
structure ReaderState where
  pending : List Int
  buffer : List Char

/-- Dispatch the extracted bodies in order (the `try`/`catch` around
`json::parse` and `handle_incoming`, transport.cpp lines 324-329): a body
that fails to parse, or whose dispatch throws, is dropped with a warning. -/
def dispatchBodies : List (List Char) → List Int →
    List Int × List (Int × JsonRpcResponse) × List (String × Json)
  | [], pending => (pending, [], [])
  | body :: rest, pending =>
    match Json.parse body with
    | none => dispatchBodies rest pending
    | some msg =>
      match handle_incoming msg pending with
      | .error _ => dispatchBodies rest pending
      | .ok d =>
        let (p2, comps, notifs) := dispatchBodies rest d.pending
        (p2, d.completed.toList ++ comps, d.notif.toList ++ notifs)

/-- One `read()` delivery to the reader: append the chunk to the buffer,
extract complete frames, dispatch each. -/
def feedChunk (rs : ReaderState) (chunk : List Char) :
    Except String (ReaderState × List (Int × JsonRpcResponse) × List (String × Json)) :=
  let buf := rs.buffer ++ chunk
  match extractFrames (buf.length + 1) buf [] with
  | .error e => .error e
  | .ok (bodies, leftover) =>
    let (p2, comps, notifs) := dispatchBodies bodies rs.pending
    .ok ({ pending := p2, buffer := leftover }, comps, notifs)

/-! ## Transport disconnect and send_request (C5, C10) -/

/-- Error response used by both transports when failing pending requests on
disconnect (named here to state the theorems; the translations below inline
it as the C++ does). -/
def disconnectedResponse (id : Int) : JsonRpcResponse :=
  { id := id, result := none,
    error := some (Json.obj [("code", Json.num (-32000)),
                             ("message", Json.str "Transport disconnected")]) }

/-- Observable state of `StdioTransport::Impl` for the disconnect and
send_request paths. -/
structure StdioImplState where
  state : TransportState
  pending : List Int

/-- Observable state of `SseTransport::Impl`. -/
structure SseImplState where
  state : TransportState
  pending : List Int

/-- Translation of `StdioTransport::Impl::disconnect` (transport.cpp lines
187-231), restricted to its observable effect on the protocol state: every
pending promise is fulfilled with the code -32000 "Transport disconnected"
error carrying its request id, the pending map is cleared, and the state
becomes Disconnected. (Reader-thread join and child-process SIGTERM/SIGKILL
are process-level effects outside the embedding.) -/
def stdio_disconnect (t : StdioImplState) :
    StdioImplState × List (Int × JsonRpcResponse) :=
  ({ state := TransportState.Disconnected, pending := [] },
   t.pending.map (fun id =>
     (id, { id := id, result := none,
            error := some (Json.obj [("code", Json.num (-32000)),
                                     ("message", Json.str "Transport disconnected")]) })))

/-- Translation of `SseTransport::Impl::disconnect` (transport.cpp lines
483-496): same observable effect as the stdio variant. -/
def sse_disconnect (t : SseImplState) :
    SseImplState × List (Int × JsonRpcResponse) :=
  ({ state := TransportState.Disconnected, pending := [] },
   t.pending.map (fun id =>
     (id, { id := id, result := none,
            error := some (Json.obj [("code", Json.num (-32000)),
                                     ("message", Json.str "Transport disconnected")]) })))

/-- Outcome of a `send_request` call: the immediately-completed response if
the transport refused, the updated pending map, and the message written to
the wire, if any. -/
structure SendOutcome where
  immediate : Option JsonRpcResponse
  pending : List Int
  wire : Option Json

/-- Pending-map insertion (`pending_requests_[request.id] = promise`). -/
def insertPendingId (pending : List Int) (id : Int) : List Int :=
  if id ∈ pending then pending else pending ++ [id]

/-- Translation of `StdioTransport::Impl::send_request` (transport.cpp lines
233-252): when not Connected, the future is completed at once with a code
-32000 "Transport not connected" error for the request's id, nothing is
stored and nothing written; otherwise the promise is stored and the framed
request written. -/
def stdio_send_request (state : TransportState) (pending : List Int)
    (req : JsonRpcRequest) : SendOutcome :=
  if state ≠ TransportState.Connected then
    let resp : JsonRpcResponse :=
      { id := req.id, result := none,
        error := some (Json.obj [("code", Json.num (-32000)),
                                 ("message", Json.str "Transport not connected")]) }
    { immediate := some resp, pending := pending, wire := none }
  else
    { immediate := none, pending := insertPendingId pending req.id,
      wire := some req.to_json }

/-- Translation of `SseTransport::Impl::send_request` (transport.cpp lines
498-514), refusal path and the POST body it writes when connected (the
asynchronous HTTP exchange itself stays outside the embedding). -/
def sse_send_request (state : TransportState) (pending : List Int)
    (req : JsonRpcRequest) : SendOutcome :=
  if state ≠ TransportState.Connected then
    let resp : JsonRpcResponse :=
      { id := req.id, result := none,
        error := some (Json.obj [("code", Json.num (-32000)),
                                 ("message", Json.str "Transport not connected")]) }
    { immediate := some resp, pending := pending, wire := none }
  else
    { immediate := none, pending := insertPendingId pending req.id,
      wire := some req.to_json }

/-- Response shape for the refusal path, named for the theorem statements. -/
def notConnectedResponse (id : Int) : JsonRpcResponse :=
  { id := id, result := none,
    error := some (Json.obj [("code", Json.num (-32000)),
                             ("message", Json.str "Transport not connected")]) }

/-! ## MCP client (src/mcp/client.hpp, client.cpp) -/

/-- Client lifecycle states (client.hpp line 36). -/
inductive ClientState where
  | Disconnected
  | Connecting
  | Initializing
  | Ready
  | Failed
  deriving DecidableEq, Repr

/-- Server capabilities recorded during the handshake (client.hpp lines
21-26). -/
structure ServerCapabilities where
  supports_tools : Bool := false
  supports_resources : Bool := false
  supports_prompts : Bool := false
  supports_logging : Bool := false
  deriving DecidableEq, Repr

/-- MCP tool description from `tools/list` (client.hpp lines 29-33). -/
structure McpToolInfo where
  name : String
  description : String
  input_schema : Json

/-- Observable `McpClient` state: lifecycle state, recorded capabilities and
the `next_request_id_` counter (client.hpp lines 72-76, initialised to 1). -/
structure McpClientState where
  state : ClientState := ClientState.Disconnected
  capabilities : ServerCapabilities := {}
  next_request_id : Int := 1

/-- Freshly constructed client (client.hpp defaults). -/
def initialClient : McpClientState := {}

/-- Translation of the private `McpClient::initialize` handshake (client.cpp
lines 101-146). The transport's reply is passed in as `resp` (the C++ blocks
on the future). Returns the updated client state, the request that was sent,
the notifications sent, and the success flag the caller branches on. On a
successful reply the advertised capabilities are recorded (each supported
iff its key is present in the reply's capabilities object) and the
initialized notification is sent; an error reply records nothing and sends
nothing. -/
def initHandshake (s : McpClientState) (resp : JsonRpcResponse) :
    McpClientState × JsonRpcRequest × List JsonRpcNotification × Bool :=
  let s1 : McpClientState := { s with state := ClientState.Initializing }
  let req : JsonRpcRequest :=
    { method := "initialize"
      id := s1.next_request_id
      params := Json.obj
        [("protocolVersion", Json.str "2024-11-05"),
         ("capabilities", Json.obj []),
         ("clientInfo", Json.obj [("name", Json.str "agent-cpp"),
                                  ("version", Json.str "0.1.0")])] }
  let s2 : McpClientState := { s1 with next_request_id := s1.next_request_id + 1 }
  if resp.ok then
    let caps :=
      match resp.result with
      | some result =>
        match result.lookup "capabilities" with
        | some c =>
          { supports_tools := c.containsKey "tools"
            supports_resources := c.containsKey "resources"
            supports_prompts := c.containsKey "prompts"
            supports_logging := c.containsKey "logging" : ServerCapabilities }
        | none => s2.capabilities
      | none => s2.capabilities
    ({ s2 with capabilities := caps }, req,
     [{ method := "notifications/initialized", params := Json.obj [] }], true)
  else (s2, req, [], false)

/-- Translation of the tail of `McpClient::connect` (client.cpp lines
56-88) once the transport future resolves: a transport failure yields
Failed without a handshake; otherwise the handshake runs and its outcome
decides Ready or Failed. -/
def connectClient (s : McpClientState) (transportOk : Bool) (resp : JsonRpcResponse) :
    McpClientState × List JsonRpcRequest × List JsonRpcNotification :=
  let s1 : McpClientState := { s with state := ClientState.Connecting }
  if !transportOk then ({ s1 with state := ClientState.Failed }, [], [])
  else
    let (s2, req, notifs, ok) := initHandshake s1 resp
    if ok then ({ s2 with state := ClientState.Ready }, [req], notifs)
    else ({ s2 with state := ClientState.Failed }, [req], notifs)

/-- Conversion loop of `tools/list` entries (client.cpp lines 169-179); a
`value` type mismatch throws and aborts the loop, returning the entries
converted so far. -/
def convertTools : List Json → List McpToolInfo → List McpToolInfo
  | [], acc => acc.reverse
  | tj :: rest, acc =>
    match tj.valueStr "name" "", tj.valueStr "description" "" with
    | .ok n, .ok d =>
      let schema :=
        match tj.lookup "inputSchema" with
        | some sc => sc
        | none => Json.obj [("type", Json.str "object"), ("properties", Json.obj [])]
      convertTools rest ({ name := n, description := d, input_schema := schema } :: acc)
    | _, _ => acc.reverse

/-- Translation of `McpClient::list_tools` (client.cpp lines 148-188):
refuses (no request) unless Ready with the tools capability; otherwise sends
`tools/list` — consuming one request id — and converts the reply's tools
array. -/
def list_tools (s : McpClientState) (resp : JsonRpcResponse) :
    McpClientState × List JsonRpcRequest × List McpToolInfo :=
  if s.state ≠ ClientState.Ready ∨ ¬s.capabilities.supports_tools then (s, [], [])
  else
    let req : JsonRpcRequest := { method := "tools/list", id := s.next_request_id }
    let s2 : McpClientState := { s with next_request_id := s.next_request_id + 1 }
    let tools :=
      if resp.ok then
        match resp.result with
        | some result =>
          match result.lookup "tools" with
          | some ts => convertTools ts.iterElems []
          | none => []
        | none => []
      else []
    (s2, [req], tools)

/-- Translation of `McpClient::call_tool` (client.cpp lines 190-218): when
not Ready returns an error object without consuming an id; otherwise sends
`tools/call` and maps the reply to the raw MCP result json (error replies
become isError content, per lines 205-216). -/
def call_tool (s : McpClientState) (name : String) (args : Json)
    (resp : JsonRpcResponse) : McpClientState × List JsonRpcRequest × Json :=
  if s.state ≠ ClientState.Ready then
    (s, [], Json.obj [("error", Json.str "MCP server not ready")])
  else
    let req : JsonRpcRequest :=
      { method := "tools/call", id := s.next_request_id,
        params := Json.obj [("name", Json.str name), ("arguments", args)] }
    let s2 : McpClientState := { s with next_request_id := s.next_request_id + 1 }
    let out :=
      if resp.ok then
        match resp.result with
        | some r => r
        | none => Json.obj [("content", Json.arr [])]
      else
        match resp.error_message with
        | .ok m =>
          Json.obj [("isError", Json.bool true),
                    ("content", Json.arr [Json.obj [("type", Json.str "text"),
                                                    ("text", Json.str m)]])]
        | .error e =>
          Json.obj [("isError", Json.bool true),
                    ("content", Json.arr [Json.obj [("type", Json.str "text"),
                                                    ("text", Json.str ("Exception: " ++ e))]])]
    (s2, [req], out)

/-- Client operations for the request-id invariant: each carries the reply
the transport would deliver (its content is irrelevant to id assignment). -/
inductive McpOp where
  | opConnect (transportOk : Bool) (resp : JsonRpcResponse)
  | opListTools (resp : JsonRpcResponse)
  | opCallTool (name : String) (args : Json) (resp : JsonRpcResponse)

/-- Requests a single client operation emits, with the updated state. -/
def runOp (s : McpClientState) : McpOp → McpClientState × List JsonRpcRequest
  | .opConnect tok resp =>
    let (s2, reqs, _) := connectClient s tok resp
    (s2, reqs)
  | .opListTools resp =>
    let (s2, reqs, _) := list_tools s resp
    (s2, reqs)
  | .opCallTool n a resp =>
    let (s2, reqs, _) := call_tool s n a resp
    (s2, reqs)

/-- Run a sequence of client operations, concatenating the emitted requests
in order. -/
def runOps : McpClientState → List McpOp → McpClientState × List JsonRpcRequest
  | s, [] => (s, [])
  | s, op :: rest =>
    let (s2, reqs) := runOp s op
    let (s3, more) := runOps s2 rest
    (s3, reqs ++ more)

/-! ## MCP tool bridge (McpToolBridge, client.cpp lines 224-308) -/

/-- Parameter schema entry as the registry carries it. The `tool/tool.hpp`
header is not among the provided sources; the field set follows the spec's
section 4.4 Tool Info shape and the member accesses in client.cpp lines
237-265 and tests/test_mcp.cpp. -/
structure ParameterSchema where
  name : String
  type : String
  description : String
  required : Bool
  default_value : Option Json := none
  enum_values : Option (List String) := none

/-- Tool execution result. Modelled from the spec: `tool/tool.hpp` is not
among the provided sources; the spec's section 4.4 defines
`ToolResult = (output, title?, is_error)` with the success / error /
with_title constructors used throughout the tool sources. -/
structure ToolResult where
  output : String
  title : Option String := none
  is_error : Bool := false
  deriving DecidableEq, Repr

/-- Successful result, no title. -/
def ToolResult.success (output : String) : ToolResult :=
  { output := output }

/-- Error result. -/
def ToolResult.error (output : String) : ToolResult :=
  { output := output, is_error := true }

/-- Successful result with a display title. -/
def ToolResult.with_title (output title : String) : ToolResult :=
  { output := output, title := some title }

/-- Bridge tool id, `"mcp_" + server + "_" + tool` (client.cpp line 225). -/
def bridgeId (server toolName : String) : String :=
  "mcp_" ++ server ++ "_" ++ toolName

/-- Bridge tool description (client.cpp line 225). -/
def bridgeDescription (server desc : String) : String :=
  "[MCP:" ++ server ++ "] " ++ desc

/-- Translation of the required-list scan in `McpToolBridge::parameters`
(client.cpp lines 244-250): walk the required entries, `get<std::string>`
each (throws on a non-string), stop at the first match. -/
def requiredScan : List Json → String → Except String Bool
  | [], _ => .ok false
  | j :: rest, nm =>
    match j.getStr with
    | .error e => .error e
    | .ok s => if s = nm then .ok true else requiredScan rest nm

/-- Enum extraction (client.cpp lines 257-263): `get<std::string>` each
entry. -/
def enumStrings : List Json → Except String (List String)
  | [] => .ok []
  | j :: rest =>
    match j.getStr with
    | .error e => .error e
    | .ok s =>
      match enumStrings rest with
      | .error e => .error e
      | .ok ss => .ok (s :: ss)

/-- Conversion of one properties entry to a `ParameterSchema` (client.cpp
lines 238-265). -/
def paramOfProp (requiredFields : Json) (key : String) (v : Json) :
    Except String ParameterSchema :=
  match v.valueStr "type" "string" with
  | .error e => .error e
  | .ok ty =>
    match v.valueStr "description" "" with
    | .error e => .error e
    | .ok desc =>
      match requiredScan requiredFields.iterElems key with
      | .error e => .error e
      | .ok isReq =>
        match (match v.lookup "enum" with
          | some e => Except.map some (enumStrings e.iterElems)
          | none => Except.ok none) with
        | .error e => .error e
        | .ok enums =>
          .ok { name := key, type := ty, description := desc, required := isReq,
                default_value := v.lookup "default", enum_values := enums }

/-- Conversion loop over the properties entries (client.cpp lines 237-266);
an exception from any entry propagates out of `parameters()`. -/
def mapParams (requiredFields : Json) : List (String × Json) →
    Except String (List ParameterSchema)
  | [] => .ok []
  | kv :: rest =>
    match paramOfProp requiredFields kv.1 kv.2 with
    | .error e => .error e
    | .ok p =>
      match mapParams requiredFields rest with
      | .error e => .error e
      | .ok ps => .ok (p :: ps)

/-- Translation of `McpToolBridge::parameters` (client.cpp lines 229-270):
convert each `inputSchema.properties` entry, reading the `required` list
with an array default. A non-object properties value makes the C++ object
iterator throw, surfaced as an error. -/
def bridgeParameters (info : McpToolInfo) : Except String (List ParameterSchema) :=
  if info.input_schema.containsKey "properties" then
    match info.input_schema.lookup "properties" with
    | some (Json.obj props) =>
      match info.input_schema.valueJson "required" (Json.arr []) with
      | .error e => .error e
      | .ok requiredFields => mapParams requiredFields props
    | some _ => .error "object iterator key on non-object"
    | none => .ok []
  else .ok []

/-- Text accumulation over the MCP content entries (client.cpp lines
286-294): text-typed entries are appended, separated by a newline once the
accumulator is non-empty. -/
def accumTexts : List Json → String → Except String String
  | [], acc => .ok acc
  | c :: rest, acc =>
    match c.valueStr "type" "text" with
    | .error e => .error e
    | .ok ty =>
      if ty = "text" then
        match c.valueStr "text" "" with
        | .error e => .error e
        | .ok tx => accumTexts rest (if acc = "" then tx else acc ++ "\n" ++ tx)
      else accumTexts rest acc

/-- Fallible part of `McpToolBridge::execute`'s lambda (client.cpp lines
283-294) as a function of the json `call_tool` produced: the isError flag
and the accumulated text; an error models the C++ exceptions the
surrounding try/catch intercepts. -/
def mcpExtract (result : Json) : Except String (Bool × String) :=
  match result.valueBool "isError" false with
  | .error e => .error e
  | .ok isErr =>
    let elems :=
      if result.containsKey "content" then
        match result.lookup "content" with
        | some c => c.iterElems
        | none => []
      else []
    match accumTexts elems "" with
    | .error e => .error e
    | .ok out => .ok (isErr, out)

/-- Translation of `McpToolBridge::execute` past the ready check (client.cpp
lines 278-307): empty accumulated output falls back to `dump(2)` of the
whole result; isError selects the error constructor; a thrown extraction is
reported as an execution failure. -/
def mcpExecute (result : Json) : ToolResult :=
  match mcpExtract result with
  | .error e => ToolResult.error ("MCP tool execution failed: " ++ e)
  | .ok (isErr, out) =>
    let out2 := if out = "" then Json.dump 2 result else out
    if isErr then ToolResult.error out2 else ToolResult.success out2

/-- Translation of `McpToolBridge::execute` (client.cpp lines 272-308)
including the ready check, as a function of the client readiness and the
json delivered by `call_tool`. -/
def bridgeExecute (ready : Bool) (server : String) (result : Json) : ToolResult :=
  if !ready then ToolResult.error ("MCP server '" ++ server ++ "' is not ready")
  else mcpExecute result

/-- Newline join of the text parts, as the spec words the concatenation. -/
def joinTexts : List String → String
  | [] => ""
  | [t] => t
  | t1 :: t2 :: rest => t1 ++ "\n" ++ joinTexts (t2 :: rest)

/-! ## Glob matching (src/tool/builtin/glob.cpp) -/

/-- Character at an index; all uses mirror in-bounds C++ accesses, the
default is never produced. -/
def charAtD (s : List Char) (i : Nat) : Char :=
  s.getD i ' '

/-- Scan from the first top-level opening brace for its matching close
(glob.cpp lines 32-44), tracking nesting depth. Called on the buffer from
the opening brace with its absolute index and depth 0. -/
def findCloseBrace : List Char → Nat → Int → Option Nat
  | [], _, _ => none
  | c :: rest, i, depth =>
    if c = lbraceChar then findCloseBrace rest (i + 1) (depth + 1)
    else if c = rbraceChar then
      (if depth - 1 = 0 then some i else findCloseBrace rest (i + 1) (depth - 1))
    else findCloseBrace rest (i + 1) depth

/-- Split the brace body at top-level commas (glob.cpp lines 54-68),
respecting nested braces; the accumulator carries the current alternative
reversed. -/
def splitTopCommas : List Char → Int → List Char → List (List Char)
  | [], _, cur => [cur.reverse]
  | c :: rest, depth, cur =>
    if c = lbraceChar then splitTopCommas rest (depth + 1) (c :: cur)
    else if c = rbraceChar then splitTopCommas rest (depth - 1) (c :: cur)
    else if c = ',' ∧ depth = 0 then cur.reverse :: splitTopCommas rest 0 []
    else splitTopCommas rest depth (c :: cur)

/-- Translation of `expand_braces` (glob.cpp lines 17-77), fuel-bounded
(each recursion strictly shortens the pattern, so the wrapper's fuel always
suffices): no top-level brace, or an unmatched one, yields the pattern
itself; otherwise every alternative is substituted and expanded
recursively. -/
def expandBracesAux : Nat → List Char → List (List Char)
  | 0, pat => [pat]
  | fuel + 1, pat =>
    match List.findIdx? (fun c => c = lbraceChar) pat with
    | none => [pat]
    | some openPos =>
      match findCloseBrace (pat.drop openPos) openPos 0 with
      | none => [pat]
      | some closePos =>
        let pre := pat.take openPos
        let suf := pat.drop (closePos + 1)
        let inner := (pat.drop (openPos + 1)).take (closePos - openPos - 1)
        let alts := splitTopCommas inner 0 []
        (alts.map (fun alt => expandBracesAux fuel (pre ++ alt ++ suf))).flatten

/-- String-level entry point for brace expansion. -/
def expand_braces (pattern : String) : List String :=
  (expandBracesAux (pattern.length + 1) pattern.toList).map String.mk

/-- Character-class scan of `match_segment` (glob.cpp lines 96-118): walk
the class body until the closing bracket, recording whether the subject
character was matched by a listed character or range. Returns the match flag
and the index reached. -/
def classScan : Nat → List Char → Nat → Char → Bool → Bool × Nat
  | 0, _, pi, _, found => (found, pi)
  | fuel + 1, p, pi, sc, found =>
    if pi < p.length ∧ charAtD p pi ≠ ']' then
      if pi + 2 < p.length ∧ charAtD p (pi + 1) = '-' ∧ charAtD p (pi + 2) ≠ ']' then
        let lo := charAtD p pi
        let hi := charAtD p (pi + 2)
        classScan fuel p (pi + 3) sc (if lo ≤ sc ∧ sc ≤ hi then true else found)
      else
        classScan fuel p (pi + 1) sc (if charAtD p pi = sc then true else found)
    else (found, pi)

/-- Skip trailing star characters (glob.cpp line 130). -/
def skipStars : Nat → List Char → Nat → Nat
  | 0, _, pi => pi
  | fuel + 1, p, pi =>
    if pi < p.length ∧ charAtD p pi = '*' then skipStars fuel p (pi + 1) else pi

/-- Translation of the recursive `match_segment` (glob.cpp lines 81-133)
over pattern/subject indices, fuel-bounded (every step advances pi or si, so
the wrapper's fuel suffices): star tries every suffix, question consumes one
character, a bracket class consumes one subject character when its match
flag differs from the negation, and a literal must match exactly; at the end
trailing stars are skipped and both strings must be exhausted. -/
def matchSegmentAux : Nat → List Char → List Char → Nat → Nat → Bool
  | 0, _, _, _, _ => false
  | fuel + 1, p, s, pi, si =>
    if pi < p.length ∧ si < s.length then
      let pc := charAtD p pi
      if pc = '*' then
        (List.range (s.length - si + 1)).any
          (fun d => matchSegmentAux fuel p s (pi + 1) (si + d))
      else if pc = '?' then matchSegmentAux fuel p s (pi + 1) (si + 1)
      else if pc = '[' then
        let pi1 := pi + 1
        let negStep :=
          if pi1 < p.length ∧ (charAtD p pi1 = '!' ∨ charAtD p pi1 = '^') then
            (true, pi1 + 1)
          else (false, pi1)
        let scanned := classScan (p.length + 1) p negStep.2 (charAtD s si) false
        let piAfter := if scanned.2 < p.length then scanned.2 + 1 else scanned.2
        if scanned.1 = negStep.1 then false
        else matchSegmentAux fuel p s piAfter (si + 1)
      else if pc = charAtD s si then matchSegmentAux fuel p s (pi + 1) (si + 1)
      else false
    else
      (skipStars (p.length + 1) p pi == p.length) && (si == s.length)

/-- String-level entry point matching the two-argument `match_segment`
overload (glob.cpp lines 135-137). -/
def match_segment (pattern str : String) : Bool :=
  matchSegmentAux (pattern.length + str.length + 2) pattern.toList str.toList 0 0

/-- Accumulating split of a path on slashes, dropping empty segments as
`split_path`'s getline loop does (glob.cpp lines 140-150). -/
def splitPathAux : List Char → List Char → List String
  | [], cur => if cur.isEmpty then [] else [String.mk cur.reverse]
  | c :: rest, cur =>
    if c = '/' then
      (if cur.isEmpty then splitPathAux rest []
       else String.mk cur.reverse :: splitPathAux rest [])
    else splitPathAux rest (c :: cur)

/-- Translation of `split_path`. -/
def split_path (path : String) : List String :=
  splitPathAux path.toList []

/-- Skip trailing double-star segments (glob.cpp line 174). -/
def skipDoubleStars : Nat → List String → Nat → Nat
  | 0, _, pi => pi
  | fuel + 1, pat, pi =>
    if pi < pat.length ∧ pat.getD pi "" = "**" then skipDoubleStars fuel pat (pi + 1)
    else pi

/-- Translation of the recursive `match_glob_path` (glob.cpp lines 153-177)
over segment indices, fuel-bounded as for `matchSegmentAux`: a double-star
segment matches any tail (trivially when final), other segments must match
pairwise; at the end trailing double-stars are skipped and both lists must
be exhausted. -/
def matchGlobAux : Nat → List String → List String → Nat → Nat → Bool
  | 0, _, _, _, _ => false
  | fuel + 1, pat, path, pi, si =>
    if pi < pat.length ∧ si < path.length then
      if pat.getD pi "" = "**" then
        (if pi + 1 = pat.length then true
         else (List.range (path.length - si + 1)).any
           (fun k => matchGlobAux fuel pat path (pi + 1) (si + k)))
      else
        (if match_segment (pat.getD pi "") (path.getD si "") then
          matchGlobAux fuel pat path (pi + 1) (si + 1)
         else false)
    else
      (skipDoubleStars (pat.length + 1) pat pi == pat.length) && (si == path.length)

/-- Translation of `match_glob` (glob.cpp lines 179-183). -/
def match_glob (pattern rel_path : String) : Bool :=
  let ps := split_path pattern
  let hs := split_path rel_path
  matchGlobAux (ps.length + hs.length + 2) ps hs 0 0

/-! ## Task tool (src/tool/builtin/task.cpp) -/

/-- Agent types (spec section 3; task.cpp maps the subagent strings onto
Explore and General). -/
inductive AgentType where
  | Build
  | Explore
  | General
  | Plan
  | Compaction
  deriving DecidableEq, Repr

/-- Finish reasons (spec section 3). -/
inductive FinishReason where
  | Stop
  | ToolCalls
  | Length
  | Error
  | Cancelled
  deriving DecidableEq, Repr

/-- Terminal callback a child session eventually fires: `on_complete` with a
reason, or `on_error` with a message. -/
inductive ChildFinish where
  | completed (reason : FinishReason)
  | errored (message : String)

/-- Child-session behavior as the task tool observes it through the
callbacks it registers: the streamed text deltas in order, then the terminal
callback. -/
structure ChildBehavior where
  deltas : List String
  finish : ChildFinish

/-- Child session handle as the factory returns it: its observable behavior
is a function of the prompt the task tool sends it via
`child_session->prompt(prompt)` (task.cpp line 64). -/
structure ChildSession where
  run : String → ChildBehavior

/-- Task-tool arguments after the `args.value(key, "")` extractions
(task.cpp lines 21-23). -/
structure TaskArgs where
  prompt : String
  description : String
  subagent_type : String

/-- Tool context slice the task tool uses: the optional child-session
factory; the factory yields the created session, or none when creation
fails (a null session pointer). -/
structure TaskContext where
  create_child_session : Option (AgentType → Option ChildSession)

/-- Subagent-type mapping (task.cpp lines 31-36): "explore" maps to Explore,
anything else — including the explicit "general" branch — to General. -/
def agentTypeOf (s : String) : AgentType :=
  if s = "explore" then AgentType.Explore
  else if s = "general" then AgentType.General
  else AgentType.General

/-- Translation of `TaskTool::execute` (task.cpp lines 19-72). The child
session created by the factory is modelled by the behavior its callbacks
deliver in response to the prompt sent to it (line 64): `on_stream` appends
each delta to `response_text` in order, `on_error` replaces the text with
the prefixed message, completion releases the wait. Returns the tool result
together with the agent type requested from the factory and the prompt sent
to the child (when a child was created). -/
def taskExecute (args : TaskArgs) (ctx : TaskContext) :
    ToolResult × Option AgentType × Option String :=
  match ctx.create_child_session with
  | none =>
    (ToolResult.error "Task tool requires a session context to create child sessions",
     none, none)
  | some factory =>
    let agent_type := agentTypeOf args.subagent_type
    match factory agent_type with
    | none => (ToolResult.error "Failed to create child session", some agent_type, none)
    | some child =>
      let behavior := child.run args.prompt
      let response_text :=
        match behavior.finish with
        | ChildFinish.completed _ => String.join behavior.deltas
        | ChildFinish.errored e => "Error: " ++ e
      (ToolResult.with_title
        (if response_text = "" then "Task completed with no output" else response_text)
        ("Task: " ++ args.description),
       some agent_type, some args.prompt)

/-- C1: `check_permission` evaluates the five rules in the fixed spec order
with the first match winning, and in particular the explicit permissions map
takes precedence over the runtime cache: whenever the tool is neither denied
nor filtered by a non-empty allow list and the permissions map binds it, the
result is that binding whatever the cache holds. -/
theorem check_permission_follows_spec_order (tool_id : String) (cfg : AgentConfig)
    (cache : PermCache) :
    check_permission tool_id cfg cache = check_permission_spec tool_id cfg cache ∧
    (∀ p : Permission, lookupAssoc cfg.permissions tool_id = some p →
      tool_id ∉ cfg.denied_tools →
      (cfg.allowed_tools = [] ∨ tool_id ∈ cfg.allowed_tools) →
      check_permission tool_id cfg cache = p) := by
  constructor
  · unfold check_permission check_permission_spec
    by_cases h1 : tool_id ∈ cfg.denied_tools
    · simp [h1, firstSome]
    · by_cases h2 : cfg.allowed_tools ≠ [] ∧ tool_id ∉ cfg.allowed_tools
      · simp [h1, h2, firstSome]
      · cases h3 : lookupAssoc cfg.permissions tool_id with
        | some p => simp [h1, h2, h3, firstSome]
        | none =>
          cases h4 : lookupAssoc cache tool_id with
          | some p => simp [h1, h2, h3, h4, firstSome]
          | none => simp [h1, h2, h3, h4, firstSome]
  · intro p hp hden hallow
    unfold check_permission
    have h2 : ¬(cfg.allowed_tools ≠ [] ∧ tool_id ∉ cfg.allowed_tools) := by
      rcases hallow with h | h
      · simp [h]
      · simp [h]
    simp [hden, h2, hp]

/-- Witness for C1: a concrete configuration in which the permissions map
binds "bash" to Allow while the runtime cache binds it to Deny; the map wins. -/
theorem check_permission_follows_spec_order_witness :
    check_permission "bash"
      ⟨Permission.Ask, [], [], [("bash", Permission.Allow)]⟩
      [("bash", Permission.Deny)] = Permission.Allow := by
  have h := check_permission_follows_spec_order "bash"
    ⟨Permission.Ask, [], [], [("bash", Permission.Allow)]⟩
    [("bash", Permission.Deny)]
  exact h.2 Permission.Allow (by decide) (by decide) (Or.inl rfl)

/-- Counterexample for C2 as stated: with default Ask, an allow list that is
non-empty but does not mention "bash", and "bash" in none of denied_tools,
allowed_tools or the permissions map, `check_permission` on an empty cache
returns Deny, not the claimed Ask. -/
theorem c2_counterexample_allowlist :
    check_permission "bash" ⟨Permission.Ask, ["read"], [], []⟩ [] = Permission.Deny ∧
    Permission.Deny ≠ Permission.Ask := by
  constructor
  · decide
  · decide

/-- C2 (amended): permission caching round-trip for a config with default Ask
whose allow list is empty or contains the tool, the tool appearing in neither
denied_tools nor the permissions map: Ask on an empty cache, Allow after
`grant`, Ask again after `clear_cache`. -/
theorem permission_caching_roundtrip (tool_id : String) (cfg : AgentConfig)
    (hd : cfg.default_permission = Permission.Ask)
    (hden : tool_id ∉ cfg.denied_tools)
    (hallow : cfg.allowed_tools = [] ∨ tool_id ∈ cfg.allowed_tools)
    (hperm : lookupAssoc cfg.permissions tool_id = none) :
    check_permission tool_id cfg [] = Permission.Ask ∧
    check_permission tool_id cfg (grant [] tool_id) = Permission.Allow ∧
    check_permission tool_id cfg (clear_cache (grant [] tool_id)) = Permission.Ask := by
  have h2 : ¬(cfg.allowed_tools ≠ [] ∧ tool_id ∉ cfg.allowed_tools) := by
    rcases hallow with h | h
    · simp [h]
    · simp [h]
  refine ⟨?_, ?_, ?_⟩
  · simp [check_permission, hden, h2, hperm, lookupAssoc, hd]
  · simp [check_permission, hden, h2, hperm, grant, insertAssoc, lookupAssoc]
  · simp [check_permission, hden, h2, hperm, clear_cache, lookupAssoc, hd]

/-- Witness for C2 (amended): the spec's S6 scenario with tool "bash" and an
otherwise empty config. -/
theorem permission_caching_roundtrip_witness :
    check_permission "bash" ⟨Permission.Ask, [], [], []⟩ [] = Permission.Ask ∧
    check_permission "bash" ⟨Permission.Ask, [], [], []⟩ (grant [] "bash") =
      Permission.Allow ∧
    check_permission "bash" ⟨Permission.Ask, [], [], []⟩
      (clear_cache (grant [] "bash")) = Permission.Ask :=
  permission_caching_roundtrip "bash" ⟨Permission.Ask, [], [], []⟩ rfl
    (by decide) (Or.inl rfl) rfl

/-- Counterexample for C4 as stated: the claimed byte sequence declares
`Content-Length: 34`, but the JSON body is 36 bytes, so the reader takes a
34-byte truncated body that fails to parse and is dropped — no pending
request is resolved, the pending map still holds id 1 and the two stray
closing-brace bytes stay in the buffer. -/
theorem c4_counterexample_truncated_body :
    feedChunk { pending := [1], buffer := [] }
      ("Content-Length: 34\r\n\r\n\x7b\"jsonrpc\":\"2.0\",\"id\":1,\"result\":\x7b\x7d\x7d".toList) =
      .ok ({ pending := [1], buffer := "\x7d\x7d".toList }, [], []) ∧
    ("\x7b\"jsonrpc\":\"2.0\",\"id\":1,\"result\":\x7b\x7d\x7d".toList).length = 36 :=
  ⟨rfl, rfl⟩

/-- C4 (amended): with the correct `Content-Length: 36` framing, the exact
bytes resolve the pending request with id 1 with a successful empty-result
response; a subsequent garbled `Bad-Header` block is dropped, and a valid
framed message arriving after it is still parsed and delivered. -/
theorem stdio_framing_delivery :
    (feedChunk { pending := [1, 2], buffer := [] }
      ("Content-Length: 36\r\n\r\n\x7b\"jsonrpc\":\"2.0\",\"id\":1,\"result\":\x7b\x7d\x7d".toList) =
      .ok ({ pending := [2], buffer := [] },
           [(1, { id := 1, result := some (Json.obj []), error := none })], [])) ∧
    (feedChunk { pending := [2], buffer := [] }
      (("Bad-Header: 0\r\n\r\n" ++
        "Content-Length: 36\r\n\r\n\x7b\"jsonrpc\":\"2.0\",\"id\":2,\"result\":\x7b\x7d\x7d").toList) =
      .ok ({ pending := [], buffer := [] },
           [(2, { id := 2, result := some (Json.obj []), error := none })], [])) ∧
    ({ id := 1, result := some (Json.obj []), error := none } : JsonRpcResponse).ok = true :=
  ⟨rfl, rfl, rfl⟩

/-- C5: disconnecting either transport fails every pending request with the
code -32000 transport-disconnected error response carrying its id — each
future is completed, none left unresolved — leaves the pending map empty and
the state Disconnected. -/
theorem disconnect_fails_all_pending (t : StdioImplState) (u : SseImplState) :
    (stdio_disconnect t).2 = t.pending.map (fun i => (i, disconnectedResponse i)) ∧
    (stdio_disconnect t).1.pending = [] ∧
    (stdio_disconnect t).1.state = TransportState.Disconnected ∧
    (sse_disconnect u).2 = u.pending.map (fun i => (i, disconnectedResponse i)) ∧
    (sse_disconnect u).1.pending = [] ∧
    (sse_disconnect u).1.state = TransportState.Disconnected ∧
    (∀ i : Int, (disconnectedResponse i).ok = false ∧ (disconnectedResponse i).id = i ∧
      (disconnectedResponse i).error =
        some (Json.obj [("code", Json.num (-32000)),
                        ("message", Json.str "Transport disconnected")])) := by
  refine ⟨rfl, rfl, rfl, rfl, rfl, rfl, fun i => ⟨rfl, rfl, rfl⟩⟩

/-- C8: brace expansion of the nested pattern yields exactly a.txt, bc.txt,
bd.txt; the path glob matcher accepts a double-star pattern against a
root-level file and rejects a rooted pattern against a path outside it. -/
theorem glob_matching_examples :
    expand_braces "\x7ba,b\x7bc,d\x7d\x7d.txt" = ["a.txt", "bc.txt", "bd.txt"] ∧
    match_glob "**/*.txt" "root.txt" = true ∧
    match_glob "src/**/*.cpp" "lib/x.cpp" = false :=
  ⟨rfl, rfl, rfl⟩

/-- C10: `send_request` on a transport that is not Connected immediately
completes the returned future with the code -32000 "Transport not
connected" error carrying the request's id, stores nothing in the pending
map and writes nothing to the wire — for both the stdio and the HTTP/SSE
variants. -/
theorem send_request_not_connected (state : TransportState) (pending : List Int)
    (req : JsonRpcRequest) (h : state ≠ TransportState.Connected) :
    stdio_send_request state pending req =
      { immediate := some (notConnectedResponse req.id), pending := pending,
        wire := none } ∧
    sse_send_request state pending req =
      { immediate := some (notConnectedResponse req.id), pending := pending,
        wire := none } ∧
    (notConnectedResponse req.id).ok = false ∧
    (notConnectedResponse req.id).id = req.id := by
  refine ⟨?_, ?_, rfl, rfl⟩
  · simp [stdio_send_request, h, notConnectedResponse]
  · simp [sse_send_request, h, notConnectedResponse]

/-- Witness for C10: a disconnected stdio transport refuses a concrete
request without touching the pending map. -/
theorem send_request_not_connected_witness :
    stdio_send_request TransportState.Disconnected [5] { method := "tools/list", id := 7 } =
      { immediate := some (notConnectedResponse 7), pending := [5], wire := none } :=
  (send_request_not_connected TransportState.Disconnected [5]
    { method := "tools/list", id := 7 } (by decide)).1

/-- Helper: every client operation either emits no request and leaves the
counter unchanged, or emits exactly one request carrying the current counter
value and increments the counter. -/
theorem runOp_emits (s : McpClientState) (op : McpOp) :
    ((runOp s op).2 = [] ∧ (runOp s op).1.next_request_id = s.next_request_id) ∨
    ((runOp s op).2.map (fun r => r.id) = [s.next_request_id] ∧
     (runOp s op).1.next_request_id = s.next_request_id + 1) := by
  cases op with
  | opConnect tok resp =>
    cases tok
    · left
      simp [runOp, connectClient]
    · right
      by_cases h : resp.ok <;>
        simp [runOp, connectClient, initHandshake, h]
  | opListTools resp =>
    by_cases h1 : s.state = ClientState.Ready
    · by_cases h2 : s.capabilities.supports_tools
      · right
        simp [runOp, list_tools, h1, h2]
      · have h2f : s.capabilities.supports_tools = false := by
          revert h2
          cases s.capabilities.supports_tools <;> simp
        left
        simp [runOp, list_tools, h1, h2f]
    · left
      simp [runOp, list_tools, h1]
  | opCallTool n a resp =>
    by_cases h : s.state ≠ ClientState.Ready
    · left
      simp [runOp, call_tool, h]
    · right
      simp [runOp, call_tool, h]

/-- Helper: over any operation sequence the emitted ids are strictly
increasing, bounded below by the starting counter and above by the final
counter, which never decreases. -/
theorem runOps_id_bounds (ops : List McpOp) : ∀ s : McpClientState,
    List.Chain' (fun a b : Int => a < b) (((runOps s ops).2).map (fun r => r.id)) ∧
    (∀ i ∈ ((runOps s ops).2).map (fun r => r.id),
      s.next_request_id ≤ i ∧ i < (runOps s ops).1.next_request_id) ∧
    s.next_request_id ≤ (runOps s ops).1.next_request_id := by
  induction ops with
  | nil =>
    intro s
    simp [runOps]
  | cons op rest ih =>
    intro s
    rcases hop : runOp s op with ⟨s2, reqs⟩
    rcases hrest : runOps s2 rest with ⟨s3, more⟩
    have hrun : runOps s (op :: rest) = (s3, reqs ++ more) := by
      simp [runOps, hop, hrest]
    have hemit := runOp_emits s op
    rw [hop] at hemit
    have ihs := ih s2
    rw [hrest] at ihs
    simp only at hemit ihs
    rw [hrun]
    simp only
    rcases hemit with ⟨hreqs, hnri⟩ | ⟨hreqs, hnri⟩
    · subst hreqs
      simp only [List.nil_append]
      refine ⟨ihs.1, fun i hi => ?_, ?_⟩
      · have := ihs.2.1 i hi
        omega
      · have := ihs.2.2
        omega
    · have hmap : (reqs ++ more).map (fun r => r.id) =
          s.next_request_id :: more.map (fun r => r.id) := by
        rw [List.map_append, hreqs]
        rfl
      rw [hmap]
      refine ⟨?_, ?_, ?_⟩
      · refine List.chain'_cons'.mpr ⟨fun y hy => ?_, ihs.1⟩
        have hmem := List.mem_of_mem_head? hy
        have := (ihs.2.1 y hmem).1
        omega
      · intro i hi
        rcases List.mem_cons.mp hi with h | h
        · subst h
          have := ihs.2.2
          omega
        · have := ihs.2.1 i h
          omega
      · have := ihs.2.2
        omega

/-- C3: within one MCP client the ids of all outgoing requests across any
sequence of initialize (via connect), list_tools and call_tool operations
are strictly increasing; every emitted id is at least 1, and the counter of
a fresh client starts at 1 (each request takes the current counter value and
increments it). -/
theorem mcp_request_ids_strictly_increasing (ops : List McpOp) :
    List.Chain' (fun a b : Int => a < b)
      (((runOps initialClient ops).2).map (fun r => r.id)) ∧
    (∀ i ∈ ((runOps initialClient ops).2).map (fun r => r.id), 1 ≤ i) ∧
    initialClient.next_request_id = 1 := by
  have h := runOps_id_bounds ops initialClient
  exact ⟨h.1, fun i hi => (h.2.1 i hi).1, rfl⟩

/-- Witness for C3: a connect followed by a tool call emits exactly the ids
1 then 2, strictly increasing, both at least 1. -/
theorem mcp_request_ids_strictly_increasing_witness :
    List.Chain' (fun a b : Int => a < b) [1, 2] ∧ (1 : Int) ≤ 1 := by
  have hids : ((runOps initialClient
      [McpOp.opConnect true { id := 1, result := some (Json.obj []), error := none },
       McpOp.opCallTool "echo" (Json.obj [])
         { id := 2, result := some (Json.obj []), error := none }]).2).map
      (fun r => r.id) = [1, 2] := rfl
  have h := mcp_request_ids_strictly_increasing
    [McpOp.opConnect true { id := 1, result := some (Json.obj []), error := none },
     McpOp.opCallTool "echo" (Json.obj [])
       { id := 2, result := some (Json.obj []), error := none }]
  refine ⟨hids ▸ h.1, h.2.1 1 ?_⟩
  rw [hids]
  simp

/-- C6: after the transport connects, the client sends exactly one
`initialize` request whose params carry protocolVersion "2024-11-05", empty
capabilities and clientInfo; on a successful response it records each
advertised capability iff its key is present in the response's capabilities
object, sends the `notifications/initialized` notification and enters Ready;
on an error response it enters Failed without notifying. -/
theorem mcp_handshake_behaviour (s : McpClientState) (resp : JsonRpcResponse) :
    (∃ req, (connectClient s true resp).2.1 = [req] ∧
      req.method = "initialize" ∧
      req.params.lookup "protocolVersion" = some (Json.str "2024-11-05") ∧
      req.params.lookup "capabilities" = some (Json.obj []) ∧
      req.params.lookup "clientInfo" =
        some (Json.obj [("name", Json.str "agent-cpp"),
                        ("version", Json.str "0.1.0")])) ∧
    (resp.error = none →
      (connectClient s true resp).1.state = ClientState.Ready ∧
      (connectClient s true resp).2.2 =
        [{ method := "notifications/initialized", params := Json.obj [] }] ∧
      (∀ result capsObj, resp.result = some result →
        result.lookup "capabilities" = some capsObj →
        (connectClient s true resp).1.capabilities =
          { supports_tools := capsObj.containsKey "tools",
            supports_resources := capsObj.containsKey "resources",
            supports_prompts := capsObj.containsKey "prompts",
            supports_logging := capsObj.containsKey "logging" })) ∧
    (∀ e, resp.error = some e →
      (connectClient s true resp).1.state = ClientState.Failed ∧
      (connectClient s true resp).2.2 = []) := by
  refine ⟨?_, ?_, ?_⟩
  · refine
      ⟨{ method := "initialize", id := s.next_request_id,
         params := Json.obj
           [("protocolVersion", Json.str "2024-11-05"),
            ("capabilities", Json.obj []),
            ("clientInfo", Json.obj [("name", Json.str "agent-cpp"),
                                     ("version", Json.str "0.1.0")])] },
       ?_, rfl, ?_, ?_, ?_⟩
    · by_cases h : resp.ok <;>
        simp [connectClient, initHandshake, h]
    · simp [Json.lookup, lookupAssoc]
    · simp [Json.lookup, lookupAssoc]
    · simp [Json.lookup, lookupAssoc]
  · intro herr
    have hok : resp.ok = true := by
      simp [JsonRpcResponse.ok, herr]
    refine ⟨?_, ?_, ?_⟩
    · simp [connectClient, initHandshake, hok]
    · simp [connectClient, initHandshake, hok]
    · intro result capsObj hres hcaps
      simp [connectClient, initHandshake, hok, hres, hcaps]
  · intro e herr
    have hok : resp.ok = false := by
      simp [JsonRpcResponse.ok, herr]
    constructor <;> simp [connectClient, initHandshake, hok]

/-- Witness for C6: a concrete successful handshake advertising only tools
enters Ready with exactly the tools capability recorded, and a concrete
error reply enters Failed. -/
theorem mcp_handshake_behaviour_witness :
    (connectClient initialClient true
      { id := 1,
        result := some (Json.obj [("capabilities", Json.obj [("tools", Json.obj [])])]),
        error := none }).1.state = ClientState.Ready ∧
    (connectClient initialClient true
      { id := 1,
        result := some (Json.obj [("capabilities", Json.obj [("tools", Json.obj [])])]),
        error := none }).1.capabilities =
      { supports_tools := true, supports_resources := false,
        supports_prompts := false, supports_logging := false } ∧
    (connectClient initialClient true
      { id := 1, result := none,
        error := some (Json.obj [("code", Json.num (-32600))]) }).1.state =
      ClientState.Failed := by
  have hgood := mcp_handshake_behaviour initialClient
    { id := 1,
      result := some (Json.obj [("capabilities", Json.obj [("tools", Json.obj [])])]),
      error := none }
  have hbad := mcp_handshake_behaviour initialClient
    { id := 1, result := none,
      error := some (Json.obj [("code", Json.num (-32600))]) }
  refine ⟨(hgood.2.1 rfl).1, ?_, (hbad.2.2 (Json.obj [("code", Json.num (-32600))]) rfl).1⟩
  have hc := (hgood.2.1 rfl).2.2 (Json.obj [("capabilities", Json.obj [("tools", Json.obj [])])])
    (Json.obj [("tools", Json.obj [])]) rfl (by rfl)
  rw [hc]
  rfl

/-- Helper: scanning a required list of plain strings computes exactly list
membership. -/
theorem requiredScan_strings (names : List String) (nm : String) :
    requiredScan (names.map Json.str) nm = .ok (names.contains nm) := by
  induction names with
  | nil => simp [requiredScan]
  | cons a rest ih =>
    by_cases h : a = nm
    · simp [requiredScan, Json.getStr, h]
    · simp [requiredScan, Json.getStr, h, ih, List.contains_cons]
      intro hc
      exact absurd hc.symm h

/-- Helper: a successful property conversion keeps the key as the parameter
name and obtains required from the required-list scan. -/
theorem paramOfProp_ok (rf : Json) (k : String) (v : Json) (p : ParameterSchema)
    (h : paramOfProp rf k v = .ok p) :
    p.name = k ∧ requiredScan rf.iterElems k = .ok p.required := by
  unfold paramOfProp at h
  cases hty : v.valueStr "type" "string" with
  | error e => rw [hty] at h; simp at h
  | ok ty =>
    rw [hty] at h
    cases hd : v.valueStr "description" "" with
    | error e => rw [hd] at h; simp at h
    | ok d =>
      rw [hd] at h
      cases hr : requiredScan rf.iterElems k with
      | error e => rw [hr] at h; simp at h
      | ok isReq =>
        rw [hr] at h
        cases he : (match v.lookup "enum" with
          | some e => Except.map some (enumStrings e.iterElems)
          | none => Except.ok none) with
        | error e => rw [he] at h; simp at h
        | ok enums =>
          rw [he] at h
          simp only [Except.ok.injEq] at h
          subst h
          exact ⟨rfl, rfl⟩

/-- Helper: a successful conversion of the properties list yields parameters
whose (name, required) pairs are exactly the property keys with their
membership in the required string list. -/
theorem mapParams_names (rf : Json) (reqNames : List String)
    (hrf : rf.iterElems = reqNames.map Json.str) :
    ∀ (props : List (String × Json)) (ps : List ParameterSchema),
      mapParams rf props = .ok ps →
      ps.map (fun p => (p.name, p.required)) =
        props.map (fun kv => (kv.1, reqNames.contains kv.1)) := by
  intro props
  induction props with
  | nil =>
    intro ps h
    simp [mapParams] at h
    subst h
    simp
  | cons kv rest ih =>
    intro ps h
    unfold mapParams at h
    cases hp : paramOfProp rf kv.1 kv.2 with
    | error e => rw [hp] at h; simp at h
    | ok p =>
      rw [hp] at h
      cases hm : mapParams rf rest with
      | error e => rw [hm] at h; simp at h
      | ok ps2 =>
        rw [hm] at h
        simp only [Except.ok.injEq] at h
        subst h
        have hpo := paramOfProp_ok rf kv.1 kv.2 p hp
        have hscan := hpo.2
        rw [hrf, requiredScan_strings] at hscan
        simp only [Except.ok.injEq] at hscan
        simp [hpo.1, ← hscan, ih ps2 hm]

/-- Helper: text accumulation over well-typed content entries folds the
text-typed entries' strings with the newline-separating step. -/
theorem accumTexts_typed (contents : List (String × String)) :
    ∀ acc, accumTexts (contents.map (fun tt =>
        Json.obj [("type", Json.str tt.1), ("text", Json.str tt.2)])) acc =
      .ok (((contents.filter (fun tt => tt.1 = "text")).map (fun tt => tt.2)).foldl
        (fun a t => if a = "" then t else a ++ "\n" ++ t) acc) := by
  induction contents with
  | nil => intro acc; simp [accumTexts]
  | cons c rest ih =>
    intro acc
    by_cases h : c.1 = "text"
    · simp [accumTexts, Json.valueStr, lookupAssoc, Json.getStr, h, ih]
    · simp [accumTexts, Json.valueStr, lookupAssoc, Json.getStr, h, ih]

/-- Helper: the newline-separating fold from a non-empty accumulator is the
newline join. -/
theorem foldl_join_aux (rest : List String) : ∀ acc : String, acc ≠ "" →
    rest.foldl (fun a t => if a = "" then t else a ++ "\n" ++ t) acc =
      joinTexts (acc :: rest) := by
  induction rest with
  | nil => intro acc _; simp [joinTexts]
  | cons r rs ih =>
    intro acc h
    have hstep : (if acc = "" then r else acc ++ "\n" ++ r) = acc ++ "\n" ++ r := by
      simp [h]
    have hne : acc ++ "\n" ++ r ≠ "" := by
      intro hcontra
      have hlen := congrArg String.length hcontra
      rw [String.length_append, String.length_append] at hlen
      have h1 : ("\n" : String).length = 1 := rfl
      have h0 : ("" : String).length = 0 := rfl
      omega
    simp only [List.foldl_cons, hstep]
    rw [ih _ hne]
    cases rs with
    | nil => simp [joinTexts]
    | cons x xs => simp [joinTexts, String.append_assoc]

/-- Counterexample for C7 as stated, in both of its failure modes. First, on
a result whose content array holds no text entry, the concatenation of
text-typed entries is empty, but execute outputs the dump(2) pretty-print of
the whole result instead of that empty concatenation. Second, on a result
whose content holds the text entries "" then "x", the newline-join of the
text entries is "\nx", but execute outputs "x": the code inserts a separator
only when the output accumulated so far is non-empty, so the output is not
the newline-join of the text entries even when that join is non-empty. -/
theorem c7_counterexample_output_mismatch :
    (bridgeExecute true "srv" (Json.obj [("content", Json.arr [])])).output ≠
      joinTexts [] ∧
    (bridgeExecute true "srv" (Json.obj [("content", Json.arr [])])).output =
      "\x7b\n  \"content\": []\n\x7d" ∧
    (bridgeExecute true "srv" (Json.obj [("content", Json.arr [])])).is_error = false ∧
    (bridgeExecute true "srv"
      (Json.obj [("content", Json.arr
        [Json.obj [("type", Json.str "text"), ("text", Json.str "")],
         Json.obj [("type", Json.str "text"), ("text", Json.str "x")]])])).output = "x" ∧
    joinTexts ["", "x"] = "\nx" ∧
    ("x" : String) ≠ "\nx" := by
  refine ⟨?_, rfl, rfl, rfl, rfl, by decide⟩
  intro hc
  exact absurd (rfl.trans hc)
    (by decide : ¬("\x7b\n  \"content\": []\n\x7d" : String) = joinTexts [])

/-- C7 (amended): the bridge wraps a remote tool as a local Tool whose id is
exactly "mcp_" + server + "_" + tool; its parameters are derived from
inputSchema.properties with each parameter named after its key and marked
required iff the key appears in the schema's required string list; execute
delegates to call_tool and accumulates the text-typed entries of the
result's content array in order, inserting a newline separator before an
entry only when the output accumulated so far is non-empty — so the output
coincides with the newline-join of the text entries exactly when the first
text entry is non-empty — falling back to the pretty-printed (dump(2))
whole result when the accumulated output is empty, and returns an error
ToolResult iff the result has isError:true. -/
theorem mcp_bridge_behaviour
    (server : String) (info : McpToolInfo) (props : List (String × Json))
    (reqNames : List String) (ps : List ParameterSchema)
    (result : Json) (contents : List (String × String)) (b : Bool)
    (hprops : info.input_schema.lookup "properties" = some (Json.obj props))
    (hreq : info.input_schema.valueJson "required" (Json.arr []) =
      .ok (Json.arr (reqNames.map Json.str)))
    (hps : bridgeParameters info = .ok ps)
    (hcontent : result.lookup "content" =
      some (Json.arr (contents.map (fun tt =>
        Json.obj [("type", Json.str tt.1), ("text", Json.str tt.2)]))))
    (herr : result.valueBool "isError" false = .ok b) :
    bridgeId server info.name = "mcp_" ++ server ++ "_" ++ info.name ∧
    ps.map (fun p => (p.name, p.required)) =
      props.map (fun kv => (kv.1, reqNames.contains kv.1)) ∧
    bridgeExecute true server result =
      (if b then ToolResult.error else ToolResult.success)
        (if ((contents.filter (fun tt => tt.1 = "text")).map (fun tt => tt.2)).foldl
              (fun a t => if a = "" then t else a ++ "\n" ++ t) "" = ""
         then Json.dump 2 result
         else ((contents.filter (fun tt => tt.1 = "text")).map (fun tt => tt.2)).foldl
              (fun a t => if a = "" then t else a ++ "\n" ++ t) "") ∧
    (∀ t restTexts,
      (contents.filter (fun tt => tt.1 = "text")).map (fun tt => tt.2) =
        t :: restTexts →
      t ≠ "" →
      ((contents.filter (fun tt => tt.1 = "text")).map (fun tt => tt.2)).foldl
          (fun a t => if a = "" then t else a ++ "\n" ++ t) "" =
        joinTexts (t :: restTexts)) := by
  refine ⟨rfl, ?_, ?_, ?_⟩
  · have hck : info.input_schema.containsKey "properties" = true := by
      simp [Json.containsKey, hprops]
    rw [bridgeParameters, hck, hprops, hreq] at hps
    simp only [if_true] at hps
    exact mapParams_names (Json.arr (reqNames.map Json.str)) reqNames rfl props ps hps
  · have hck : result.containsKey "content" = true := by
      simp [Json.containsKey, hcontent]
    have hext : mcpExtract result = .ok (b,
        ((contents.filter (fun tt => tt.1 = "text")).map (fun tt => tt.2)).foldl
          (fun a t => if a = "" then t else a ++ "\n" ++ t) "") := by
      rw [mcpExtract, herr]
      simp only [hck, hcontent, if_true]
      rw [show (Json.arr (contents.map (fun tt =>
          Json.obj [("type", Json.str tt.1), ("text", Json.str tt.2)]))).iterElems =
        contents.map (fun tt =>
          Json.obj [("type", Json.str tt.1), ("text", Json.str tt.2)]) from rfl]
      rw [accumTexts_typed]
    have hbe : bridgeExecute true server result = mcpExecute result := rfl
    rw [hbe, mcpExecute, hext]
    by_cases hout : ((contents.filter (fun tt => tt.1 = "text")).map
        (fun tt => tt.2)).foldl (fun a t => if a = "" then t else a ++ "\n" ++ t) "" = ""
    · cases b <;> simp [hout]
    · cases b <;> simp [hout]
  · intro t restTexts htexts ht
    rw [htexts]
    simp only [List.foldl_cons, if_true, ite_true]
    exact foldl_join_aux restTexts t ht

/-- Witness for C7 (amended): a concrete schema with one required "path"
parameter and a call result with a single text entry "hi"; the accumulated
output is "hi" and the fold coincides with the newline-join. -/
theorem mcp_bridge_behaviour_witness :
    bridgeId "srv" "read_file" = "mcp_srv_read_file" ∧
    ([{ name := "path", type := "string", description := "", required := true }] :
        List ParameterSchema).map (fun p => (p.name, p.required)) =
      ([("path", Json.obj [("type", Json.str "string")])]).map
        (fun kv => (kv.1, ["path"].contains kv.1)) ∧
    bridgeExecute true "srv"
      (Json.obj [("content", Json.arr [Json.obj [("type", Json.str "text"),
                                                 ("text", Json.str "hi")]])]) =
      (if false then ToolResult.error else ToolResult.success)
        (if (([("text", "hi")].filter (fun tt => tt.1 = "text")).map
              (fun tt => tt.2)).foldl
              (fun a t => if a = "" then t else a ++ "\n" ++ t) "" = ""
         then Json.dump 2
           (Json.obj [("content", Json.arr [Json.obj [("type", Json.str "text"),
                                                      ("text", Json.str "hi")]])])
         else (([("text", "hi")].filter (fun tt => tt.1 = "text")).map
              (fun tt => tt.2)).foldl
              (fun a t => if a = "" then t else a ++ "\n" ++ t) "") ∧
    (([("text", "hi")].filter (fun tt => tt.1 = "text")).map (fun tt => tt.2)).foldl
        (fun a t => if a = "" then t else a ++ "\n" ++ t) "" = joinTexts ["hi"] := by
  have h := mcp_bridge_behaviour "srv"
    { name := "read_file", description := "d",
      input_schema := Json.obj
        [("properties", Json.obj [("path", Json.obj [("type", Json.str "string")])]),
         ("required", Json.arr [Json.str "path"])] }
    [("path", Json.obj [("type", Json.str "string")])]
    ["path"]
    [{ name := "path", type := "string", description := "", required := true }]
    (Json.obj [("content", Json.arr [Json.obj [("type", Json.str "text"),
                                               ("text", Json.str "hi")]])])
    [("text", "hi")] false
    rfl rfl rfl rfl rfl
  exact ⟨h.1, h.2.1, h.2.2.1, h.2.2.2 "hi" [] rfl (by decide)⟩

/-- Counterexample for C9 as stated, in both of its failure modes. First, a
child session that completes while streaming no deltas makes the task tool
return the placeholder "Task completed with no output", not the (empty)
concatenation of the child's streamed text deltas. Second, a child that
streams "partial" and then fires `on_error` with "boom" makes the task tool
return "Error: boom", discarding the streamed deltas, again not their
concatenation. -/
theorem c9_counterexample_stream_divergences :
    (taskExecute { prompt := "p", description := "d", subagent_type := "general" }
      { create_child_session :=
          some (fun _ => some { run := fun _ =>
            { deltas := [],
              finish := ChildFinish.completed FinishReason.Stop } }) }).1.output =
      "Task completed with no output" ∧
    String.join ([] : List String) = "" ∧
    ("Task completed with no output" : String) ≠ "" ∧
    (taskExecute { prompt := "p", description := "d", subagent_type := "general" }
      { create_child_session :=
          some (fun _ => some { run := fun _ =>
            { deltas := ["partial"],
              finish := ChildFinish.errored "boom" } }) }).1.output =
      "Error: boom" ∧
    ("Error: boom" : String) ≠ String.join ["partial"] := by
  refine ⟨rfl, rfl, by decide, rfl, by decide⟩

/-- C9 (amended): given {prompt, description, subagent_type} and a context
carrying a child-session factory, the task tool requests a session of the
mapped agent type from that factory and sends it the prompt; when the child
completes normally, the returned ToolResult's output is the concatenation of
the child's streamed text deltas in order — or the placeholder "Task
completed with no output" when that concatenation is empty — and when the
child fires on_error, the output is "Error: " plus the message, discarding
the streamed deltas; either way titled with the description. -/
theorem task_tool_pipes_child_stream (args : TaskArgs) (ctx : TaskContext)
    (factory : AgentType → Option ChildSession) (child : ChildSession)
    (hf : ctx.create_child_session = some factory)
    (hc : factory (agentTypeOf args.subagent_type) = some child) :
    (taskExecute args ctx).2.1 = some (agentTypeOf args.subagent_type) ∧
    (taskExecute args ctx).2.2 = some args.prompt ∧
    (∀ reason, (child.run args.prompt).finish = ChildFinish.completed reason →
      (taskExecute args ctx).1 =
        ToolResult.with_title
          (if String.join (child.run args.prompt).deltas = ""
           then "Task completed with no output"
           else String.join (child.run args.prompt).deltas)
          ("Task: " ++ args.description)) ∧
    (∀ msg, (child.run args.prompt).finish = ChildFinish.errored msg →
      (taskExecute args ctx).1 =
        ToolResult.with_title ("Error: " ++ msg) ("Task: " ++ args.description)) := by
  refine ⟨?_, ?_, ?_, ?_⟩
  · simp [taskExecute, hf, hc]
  · simp [taskExecute, hf, hc]
  · intro reason hfin
    simp [taskExecute, hf, hc, hfin]
  · intro msg hfin
    have hne : ("Error: " ++ msg) ≠ "" := by
      intro hcontra
      have hlen := congrArg String.length hcontra
      rw [String.length_append] at hlen
      have h1 : ("Error: " : String).length = 7 := rfl
      have h0 : ("" : String).length = 0 := rfl
      omega
    simp [taskExecute, hf, hc, hfin, hne]

/-- Witness for C9 (amended): an explore child answering the prompt "review"
by streaming "Hello " then "world" and completing yields output
"Hello world" with the task title; the factory was asked for an Explore
session and the child received the prompt "review". -/
theorem task_tool_pipes_child_stream_witness :
    (taskExecute { prompt := "review", description := "scan", subagent_type := "explore" }
      { create_child_session :=
          some (fun _ => some { run := fun _ =>
            { deltas := ["Hello ", "world"],
              finish := ChildFinish.completed FinishReason.Stop } }) }).1 =
      ToolResult.with_title "Hello world" "Task: scan" ∧
    (taskExecute { prompt := "review", description := "scan", subagent_type := "explore" }
      { create_child_session :=
          some (fun _ => some { run := fun _ =>
            { deltas := ["Hello ", "world"],
              finish := ChildFinish.completed FinishReason.Stop } }) }).2.1 =
      some (agentTypeOf "explore") ∧
    (taskExecute { prompt := "review", description := "scan", subagent_type := "explore" }
      { create_child_session :=
          some (fun _ => some { run := fun _ =>
            { deltas := ["Hello ", "world"],
              finish := ChildFinish.completed FinishReason.Stop } }) }).2.2 =
      some "review" := by
  have h := task_tool_pipes_child_stream
    { prompt := "review", description := "scan", subagent_type := "explore" }
    { create_child_session :=
        some (fun _ => some { run := fun _ =>
          { deltas := ["Hello ", "world"],
            finish := ChildFinish.completed FinishReason.Stop } }) }
    (fun _ => some { run := fun _ =>
      { deltas := ["Hello ", "world"],
        finish := ChildFinish.completed FinishReason.Stop } })
    { run := fun _ =>
      { deltas := ["Hello ", "world"],
        finish := ChildFinish.completed FinishReason.Stop } }
    rfl rfl
  refine ⟨?_, h.1, h.2.1⟩
  have h3 := h.2.2.1 FinishReason.Stop rfl
  rw [h3]
  rfl

end AgentCpp
